import Mathlib

/-!
Verification of the montreal_parking_finder core engine.

This file shallowly embeds the three core components of the repository:

* the restriction parser (`parse_restriction` in
  `montreal_parking_finder/data/parser.py`),
* the availability evaluator (`is_parking_allowed` in the same module),
* the interval geometry generator (`create_street_interval` in
  `montreal_parking_finder/geo/osm.py`),

and proves or refutes the frozen specification claims about them.

Strings are modelled as `List Char`; the handful of Python regular
expressions used by the parser are small and unambiguous enough to be
implemented by hand-written matchers (each one is commented with the
regex it embeds, together with a note on why the deterministic matcher
agrees with Python's backtracking semantics on that pattern).
-/

namespace MPF

abbrev Str := List Char

/-- Whitespace characters matched by Python's regex class. -/
def isWs (c : Char) : Bool :=
  c = ' ' || c = '\t' || c = '\n' || c = '\r' || c = Char.ofNat 11 || c = Char.ofNat 12

/-- Word characters of Python's regex class (ASCII letters, digits, underscore). -/
def isWordChar (c : Char) : Bool := c.isAlphanum || c = '_'

def lower (s : Str) : Str := s.map Char.toLower

/-- Consume `pat` at the start of `s` (case sensitive); return the remainder. -/
def dropStart : Str → Str → Option Str
  | [], s => some s
  | _ :: _, [] => none
  | p :: ps, c :: cs => if p = c then dropStart ps cs else none

/-- Consume `pat` at the start of `s` case-insensitively; return the remainder. -/
def dropStartCI : Str → Str → Option Str
  | [], s => some s
  | _ :: _, [] => none
  | p :: ps, c :: cs => if p.toLower = c.toLower then dropStartCI ps cs else none

/-- Python's substring containment test (`pat in s`). -/
def containsSub (pat : Str) : Str → Bool
  | [] => pat.isEmpty
  | c :: rest => (dropStart pat (c :: rest)).isSome || containsSub pat rest

/-- Search for a position-wise matcher at every suffix of the string,
as `re.search` does. -/
def searchSub (f : Str → Bool) : Str → Bool
  | [] => f []
  | c :: rest => f (c :: rest) || searchSub f rest

/-- Consume one or more whitespace characters (regex `\s+`). -/
def ws1 (s : Str) : Option Str :=
  let w := s.takeWhile isWs
  if w.isEmpty then none else some (s.dropWhile isWs)

/-- Value of a digit string, as Python's `int` on the parser's digit tokens. -/
def parseNatDigits (s : Str) : Nat :=
  s.foldl (fun a c => a * 10 + (c.toNat - 48)) 0

/-- Python's `str.replace('24', '00')`: replace every non-overlapping
occurrence of `24`, scanning left to right. -/
def replace24 : Str → Str
  | '2' :: '4' :: r => '0' :: '0' :: replace24 r
  | c :: r => c :: replace24 r
  | [] => []

/-! Time-range extraction, regex `(\d{1,2}h\d{0,2})-(\d{1,2}h\d{0,2})`. -/

/-- Up to two leading digits, greedily (regex `\d{0,2}`; safe because the
pattern continues with a non-digit, so greediness never needs backtracking). -/
def takeUpTo2Digits : Str → Str × Str
  | c1 :: c2 :: r =>
    if c1.isDigit && c2.isDigit then ([c1, c2], r)
    else if c1.isDigit then ([c1], c2 :: r)
    else ([], c1 :: c2 :: r)
  | [c1] => if c1.isDigit then ([c1], []) else ([], [c1])
  | [] => ([], [])

/-- Match `\d{1,2}h\d{0,2}` at the start of the string, returning the matched
token and the remainder.  The regex engine first tries a two-digit hour and
backtracks to one digit if no `h` follows; a digit never equals `h`, so the
case split below reproduces that behaviour exactly. -/
def matchTimeToken (s : Str) : Option (Str × Str) :=
  match s with
  | c1 :: c2 :: rest =>
    if c1.isDigit && c2.isDigit then
      match rest with
      | 'h' :: r2 =>
        let (m, r3) := takeUpTo2Digits r2
        some (c1 :: c2 :: 'h' :: m, r3)
      | _ => none
    else if c1.isDigit && c2 = 'h' then
      let (m, r3) := takeUpTo2Digits rest
      some (c1 :: 'h' :: m, r3)
    else none
  | _ => none

/-- Match the full time-range pattern at the start of the string. -/
def matchTimeRangeAt (s : Str) : Option ((Str × Str) × Str) :=
  match matchTimeToken s with
  | none => none
  | some (t1, r1) =>
    match r1 with
    | '-' :: r2 =>
      match matchTimeToken r2 with
      | none => none
      | some (t2, r3) => some ((t1, t2), r3)
    | _ => none

/-- `re.findall` scan: try the pattern at each position, continuing after a
match (non-overlapping).  The fuel is the string length; every step consumes
at least one character. -/
def findTimeRangesAux : Nat → Str → List (Str × Str)
  | 0, _ => []
  | _, [] => []
  | fuel + 1, c :: rest =>
    match matchTimeRangeAt (c :: rest) with
    | some (p, r) => p :: findTimeRangesAux fuel r
    | none => findTimeRangesAux fuel rest

def findTimeRanges (s : Str) : List (Str × Str) :=
  findTimeRangesAux s.length s

/-! Day extraction. -/

/-- French day names and abbreviations, in the source's dictionary order. -/
def dayMapping : List (Str × Str) :=
  [("LUN".toList, "Monday".toList), ("LUNDI".toList, "Monday".toList),
   ("MAR".toList, "Tuesday".toList), ("MARDI".toList, "Tuesday".toList),
   ("MER".toList, "Wednesday".toList), ("MERCREDI".toList, "Wednesday".toList),
   ("JEU".toList, "Thursday".toList), ("JEUDI".toList, "Thursday".toList),
   ("VEN".toList, "Friday".toList), ("VENDREDI".toList, "Friday".toList),
   ("SAM".toList, "Saturday".toList), ("SAMEDI".toList, "Saturday".toList),
   ("DIM".toList, "Sunday".toList), ("DIMANCHE".toList, "Sunday".toList)]

/-- Does `name` match at the start of `s` under the tail of the day regex
`\b NAME \.? (?!\w)`?  Consuming the optional dot and then failing the
lookahead is equivalent to requiring that the character right after the name
is absent or not a word character (a dot itself is not a word character). -/
def dayTokenAt (name : Str) (s : Str) : Bool :=
  match dropStart name s with
  | none => false
  | some [] => true
  | some (c :: _) => !isWordChar c

/-- Search `\b NAME \.?(?!\w)` anywhere in the string, tracking the previous
character for the word-boundary test. -/
def searchDayAux (name : Str) (prev : Option Char) : Str → Bool
  | [] => false
  | c :: rest =>
    ((match prev with
      | none => true
      | some p => !isWordChar p) && dayTokenAt name (c :: rest))
    || searchDayAux name (some c) rest

def searchDay (name : Str) (s : Str) : Bool := searchDayAux name none s

/-- Accumulate individually matched day tokens in dictionary order,
skipping duplicates, as the source's first day loop does. -/
def singleDays (s : Str) : List Str :=
  dayMapping.foldl
    (fun acc p => if searchDay p.1 s && !acc.contains p.2 then acc ++ [p.2] else acc) []

/-- Connector alternation `(AU|A|ET)\s+LAST` of the day-range regex, with the
regex's ordered alternation (`AU` before `A` before `ET`) and backtracking. -/
def dayRangeConn (last : Str) (s : Str) : Bool :=
  (match dropStart "AU".toList s with
   | some r => (match ws1 r with
     | some r2 => (dropStart last r2).isSome
     | none => false)
   | none => false) ||
  (match dropStart "A".toList s with
   | some r => (match ws1 r with
     | some r2 => (dropStart last r2).isSome
     | none => false)
   | none => false) ||
  (match dropStart "ET".toList s with
   | some r => (match ws1 r with
     | some r2 => (dropStart last r2).isSome
     | none => false)
   | none => false)

/-- Match the day-range regex `LUN\.?\s+(AU|A|ET)\s+LAST\.?` at the start of
the string (the trailing optional dot never affects acceptance). -/
def matchDayRangeAt (last : Str) (s : Str) : Bool :=
  match dropStart "LUN".toList s with
  | none => false
  | some r =>
    let r1 := match r with
      | '.' :: r2 => r2
      | _ => r
    match ws1 r1 with
    | none => false
    | some r3 => dayRangeConn last r3

def dayRange (last : Str) (s : Str) : Bool := searchSub (matchDayRangeAt last) s

def lunVen (s : Str) : Bool := dayRange "VEN".toList s || containsSub "LUN A VEN".toList s
def lunSam (s : Str) : Bool := dayRange "SAM".toList s || containsSub "LUN A SAM".toList s
def lunDim (s : Str) : Bool := dayRange "DIM".toList s || containsSub "LUN A DIM".toList s

def mondayToFriday : List Str :=
  ["Monday".toList, "Tuesday".toList, "Wednesday".toList, "Thursday".toList,
   "Friday".toList]

def mondayToSaturday : List Str := mondayToFriday ++ ["Saturday".toList]

def mondayToSunday : List Str := mondayToSaturday ++ ["Sunday".toList]

/-- Day set of a description: the accumulated single-day tokens, overwritten
by the first matching day-range phrase of the source's `if`/`elif` chain. -/
def daysOf (s : Str) : List Str :=
  if lunVen s then mondayToFriday
  else if lunSam s then mondayToSaturday
  else if lunDim s then mondayToSunday
  else singleDays s

/-! Date-range extraction.  The source regex (compiled with `re.IGNORECASE`):
`(\d{1,2})(?:ER|er|)?\s+(MONTH)\.?\s+(AU|A|ET)\s+(\d{1,2})(?:ER|er|)?\s+(MONTH)`
where `MONTH` is the ordered alternation
`JANVIER|JAN|FEVRIER|FEV|MARS|AVRIL|AVR|MAI|JUIN|JUILLET|JUIL|AOUT|SEPTEMBRE|SEPT|OCTOBRE|OCT|NOVEMBRE|NOV|DECEMBRE|DEC`. -/

/-- The month alternation, in the regex's order (longer names first where one
name is a prefix of another, so first-match scanning agrees with the engine). -/
def regexMonths : List Str :=
  ["JANVIER".toList, "JAN".toList, "FEVRIER".toList, "FEV".toList, "MARS".toList,
   "AVRIL".toList, "AVR".toList, "MAI".toList, "JUIN".toList, "JUILLET".toList,
   "JUIL".toList, "AOUT".toList, "SEPTEMBRE".toList, "SEPT".toList,
   "OCTOBRE".toList, "OCT".toList, "NOVEMBRE".toList, "NOV".toList,
   "DECEMBRE".toList, "DEC".toList]

/-- Match the month alternation case-insensitively at the start of the string,
returning the text as it appears in the input together with the remainder. -/
def matchMonthTok : List Str → Str → Option (Str × Str)
  | [], _ => none
  | m :: ms, s =>
    match dropStartCI m s with
    | some r => some (s.take m.length, r)
    | none => matchMonthTok ms s

/-- One or two leading digits (regex `\d{1,2}`, greedy).  When a third digit
follows, the regex fails at this position under every backtracking choice, as
does the deterministic parse here (the following `\s+` rejects a digit). -/
def digits12 (s : Str) : Option (Str × Str) :=
  match s with
  | c1 :: c2 :: r =>
    if c1.isDigit && c2.isDigit then some ([c1, c2], r)
    else if c1.isDigit then some ([c1], c2 :: r)
    else none
  | [c1] => if c1.isDigit then some ([c1], []) else none
  | [] => none

/-- Optional ordinal marker `(?:ER|er|)?`, case-insensitive.  Consuming it can
never turn a successful parse into a failing one because the next regex atom is
`\s+` and `e` is not whitespace. -/
def optER (s : Str) : Str :=
  match s with
  | c1 :: c2 :: r => if c1.toLower = 'e' && c2.toLower = 'r' then r else s
  | _ => s

/-- Optional dot `\.?` before `\s+` (a dot is not whitespace, so consuming a
present dot is again harmless). -/
def optDot (s : Str) : Str :=
  match s with
  | '.' :: r => r
  | _ => s

/-- A raw match of the date-range regex: the five captured groups. -/
structure RawDateMatch where
  d1 : Str
  m1 : Str
  conn : Str
  d2 : Str
  m2 : Str
deriving DecidableEq, Repr

/-- Continuation after the connector: `\s+(\d{1,2})(?:ER|er|)?\s+(MONTH)`. -/
def afterConn (s : Str) : Option (Str × Str × Str) :=
  match ws1 s with
  | none => none
  | some r =>
    match digits12 r with
    | none => none
    | some (d2, r2) =>
      match ws1 (optER r2) with
      | none => none
      | some r4 =>
        match matchMonthTok regexMonths r4 with
        | none => none
        | some (m2, r5) => some (d2, m2, r5)

/-- Try one connector alternative (case-insensitive) followed by the
continuation; the alternation below backtracks across alternatives exactly
like the regex engine. -/
def tryConn (tok : Str) (s : Str) : Option (Str × (Str × Str × Str)) :=
  match dropStartCI tok s with
  | none => none
  | some r =>
    match afterConn r with
    | none => none
    | some res => some (s.take tok.length, res)

/-- Match the whole date-range regex at the start of the string, returning the
captured groups and the remainder after the match. -/
def matchDateAt (s : Str) : Option (RawDateMatch × Str) :=
  match digits12 s with
  | none => none
  | some (d1, r1) =>
    match ws1 (optER r1) with
    | none => none
    | some r3 =>
      match matchMonthTok regexMonths r3 with
      | none => none
      | some (m1, r4) =>
        match ws1 (optDot r4) with
        | none => none
        | some r6 =>
          match tryConn "AU".toList r6 <|> tryConn "A".toList r6 <|> tryConn "ET".toList r6 with
          | some (c, (d2, m2, rest)) => some (⟨d1, m1, c, d2, m2⟩, rest)
          | none => none

/-- `re.findall` scan for the date-range regex. -/
def findDateMatchesAux : Nat → Str → List RawDateMatch
  | 0, _ => []
  | _, [] => []
  | fuel + 1, c :: rest =>
    match matchDateAt (c :: rest) with
    | some (m, r) => m :: findDateMatchesAux fuel r
    | none => findDateMatchesAux fuel rest

def findDateMatches (s : Str) : List RawDateMatch :=
  findDateMatchesAux s.length s

/-- French month names and abbreviations with their numbers, in the source's
dictionary order. -/
def monthMapping : List (Str × Nat) :=
  [("JANVIER".toList, 1), ("JAN".toList, 1), ("FEVRIER".toList, 2), ("FEV".toList, 2),
   ("MARS".toList, 3), ("MAR".toList, 3), ("AVRIL".toList, 4), ("AVR".toList, 4),
   ("MAI".toList, 5), ("JUIN".toList, 6), ("JUILLET".toList, 7), ("JUIL".toList, 7),
   ("AOUT".toList, 8), ("SEPTEMBRE".toList, 9), ("SEPT".toList, 9),
   ("OCTOBRE".toList, 10), ("OCT".toList, 10), ("NOVEMBRE".toList, 11),
   ("NOV".toList, 11), ("DECEMBRE".toList, 12), ("DEC".toList, 12)]

/-- Resolve a captured month token to a month number by the source's loop:
every mapping entry whose lowercased key occurs in the lowercased token
overwrites the result, so the last matching entry wins; `0` means unresolved. -/
def resolveMonth (name : Str) : Nat :=
  monthMapping.foldl
    (fun acc p => if containsSub (lower p.1) (lower name) then p.2 else acc) 0

/-- A recorded date range, matching the source's dictionary
`{start_day, start_month, end_day, end_month}`. -/
structure DateRange where
  start_day : Nat
  start_month : Nat
  end_day : Nat
  end_month : Nat
deriving DecidableEq, Repr

/-- Keep only the matches whose two month tokens resolve (`start_month > 0 and
end_month > 0` in the source); unresolved matches are dropped and parsing of
the remaining matches continues. -/
def buildDateRanges (ms : List RawDateMatch) : List DateRange :=
  ms.filterMap (fun m =>
    let sm := resolveMonth m.m1
    let em := resolveMonth m.m2
    if 0 < sm ∧ 0 < em then
      some ⟨parseNatDigits m.d1, sm, parseNatDigits m.d2, em⟩
    else none)

/-! Special conditions and type classification. -/

/-- The source's ordered list of special-condition keywords. -/
def specialConditions : List Str :=
  ["RESERVE".toList, "HANDICAP".toList, "TAXI".toList, "LIVRAISON".toList,
   "AUTOBUS".toList, "DEBARCADERE".toList, "S3R".toList, "MOTOS".toList,
   "CORPS DIPLOMATIQUES".toList,
   "SERVICE D".toList ++ [Char.ofNat 39] ++ "INCENDIE".toList,
   "VEHICULES DE LA VILLE".toList, "VEHICULES MILITAIRES".toList]

/-- First special-condition keyword contained in the description, if any. -/
def findSpecial (s : Str) : Option Str :=
  specialConditions.find? (fun c => containsSub c s)

/-- Paid-parking pattern `P\s+(\d+)\s+min` at the start of the string. -/
def matchPminAt (s : Str) : Bool :=
  match s with
  | 'P' :: r =>
    (match ws1 r with
     | some r2 =>
       let ds := r2.takeWhile Char.isDigit
       if ds.isEmpty then false
       else
         (match ws1 (r2.dropWhile Char.isDigit) with
          | some r4 => (dropStart "min".toList r4).isSome
          | none => false)
     | none => false)
  | _ => false

/-- Paid-parking pattern `P\s+(\d+)h` at the start of the string. -/
def matchPhAt (s : Str) : Bool :=
  match s with
  | 'P' :: r =>
    (match ws1 r with
     | some r2 =>
       let ds := r2.takeWhile Char.isDigit
       if ds.isEmpty then false
       else
         (match r2.dropWhile Char.isDigit with
          | 'h' :: _ => true
          | _ => false)
     | none => false)
  | _ => false

def searchPmin (s : Str) : Bool := searchSub matchPminAt s

def searchPh (s : Str) : Bool := searchSub matchPhAt s

/-- Paid-parking signature: the currency keyword or one of the
`P` + duration patterns. -/
def paidSignature (s : Str) : Bool :=
  containsSub "PARCOMETRE".toList s || searchPmin s || searchPh s

/-- Restriction-type determination, the source's `if`/`elif` chain. -/
def classifyType (s : Str) : Option Char × Bool :=
  if "\\P".toList.isPrefixOf s then (some 'P', true)
  else if "\\A".toList.isPrefixOf s then (some 'A', true)
  else if paidSignature s then (some '$', false)
  else (none, false)

/-! The parsed restriction record and the parser. -/

/-- The parser's result dictionary. -/
structure ParseResult where
  type : Option Char
  is_restricted : Bool
  time_ranges : List (Str × Str)
  days : List Str
  date_ranges : List DateRange
  special : Option Str
  all_time : Bool
  raw_description : Option Str
deriving DecidableEq, Repr

/-- The default result returned for empty or missing descriptions. -/
def emptyResult (raw : Option Str) : ParseResult :=
  ⟨none, false, [], [], [], none, false, raw⟩

/-- `parse_restriction` of `montreal_parking_finder/data/parser.py`.  A `none`
input models a missing (`None`/`NaN`) description; the source returns the
default record for those and for the empty string. -/
def parse_restriction (desc : Option Str) : ParseResult :=
  match desc with
  | none => emptyResult none
  | some d =>
    if d.isEmpty then emptyResult (some d)
    else
      { type := (classifyType d).1
        is_restricted := (classifyType d).2
        time_ranges := (findTimeRanges d).map (fun p => (replace24 p.1, replace24 p.2))
        days := daysOf d
        date_ranges := buildDateRanges (findDateMatches d)
        special := findSpecial d
        all_time := containsSub "EN TOUT TEMPS".toList d
        raw_description := some d }

/-! The availability evaluator `is_parking_allowed`. -/

/-- The fields of the query instant used by the evaluator: the English weekday
name (`strftime %A`), the time of day in seconds since midnight, and the
month/day pair. -/
structure DateTime where
  weekday : Str
  timeOfDay : Nat
  month : Nat
  day : Nat
deriving DecidableEq, Repr

/-- Python's `int` restricted to the digit strings the parser produces;
`none` models the `ValueError` raised on a non-numeric part. -/
def toIntOpt (s : Str) : Option Nat :=
  if !s.isEmpty && s.all Char.isDigit then some (parseNatDigits s) else none

/-- Convert one stored endpoint string to seconds since midnight, exactly as
the evaluator does: the part before the first `h` is the hour, the part
between the first and second `h` (when present and non-empty) is the minute,
and `datetime.time` rejects hours above 23 and minutes above 59 (`none`
models the raised `ValueError`). -/
def timeVal (s : Str) : Option Nat :=
  let part0 := s.takeWhile (fun c => c ≠ 'h')
  let rest := s.dropWhile (fun c => c ≠ 'h')
  match toIntOpt part0 with
  | none => none
  | some hours =>
    let minutesOpt :=
      match rest with
      | [] => some 0
      | _ :: tail =>
        let part1 := tail.takeWhile (fun c => c ≠ 'h')
        if part1.isEmpty then some 0 else toIntOpt part1
    match minutesOpt with
    | none => none
    | some minutes =>
      if hours < 24 ∧ minutes < 60 then some (hours * 3600 + minutes * 60)
      else none

/-- The evaluator's time loop: scan the windows in order, stop at the first
window containing the instant (inclusive bounds); a malformed window reached
before any match aborts the evaluation (`none`). -/
def timeMatchAux (t : Nat) : List (Str × Str) → Option Bool
  | [] => some false
  | (s, e) :: rest =>
    match timeVal s, timeVal e with
    | some sv, some ev => if sv ≤ t ∧ t ≤ ev then some true else timeMatchAux t rest
    | _, _ => none

/-- Membership of a month/day pair in one date range, the source's two-branch
test: wrapping ranges (`start_month > end_month`) use the disjunction of the
two inclusive boundary tests, other ranges their conjunction. -/
def dateInRange (month day : Nat) (r : DateRange) : Bool :=
  if r.start_month > r.end_month then
    decide ((month > r.start_month ∨ (month = r.start_month ∧ day ≥ r.start_day)) ∨
            (month < r.end_month ∨ (month = r.end_month ∧ day ≤ r.end_day)))
  else
    decide ((month > r.start_month ∨ (month = r.start_month ∧ day ≥ r.start_day)) ∧
            (month < r.end_month ∨ (month = r.end_month ∧ day ≤ r.end_day)))

/-- `is_parking_allowed` of `montreal_parking_finder/data/parser.py`.
`none` models the `ValueError` escaping the time-window loop. -/
def is_parking_allowed (r : ParseResult) (now : DateTime) : Option Bool :=
  if r.all_time then some false
  else
    let day_match := r.days.isEmpty || r.days.contains now.weekday
    let timeRes :=
      if r.time_ranges.isEmpty then some true else timeMatchAux now.timeOfDay r.time_ranges
    match timeRes with
    | none => none
    | some time_match =>
      let date_match :=
        r.date_ranges.isEmpty || r.date_ranges.any (dateInRange now.month now.day)
      some (!(day_match && time_match && date_match && r.is_restricted))

/-! Interval geometry, `create_street_interval` of
`montreal_parking_finder/geo/osm.py`.  Coordinates are modelled as real
pairs; the shapely primitives `project`, `interpolate` and point-to-segment
`distance` are embedded by their mathematical definitions. -/

noncomputable section Geometry

open Classical

abbrev Pt := ℝ × ℝ

def sqNorm (p q : Pt) : ℝ := (p.1 - q.1) ^ 2 + (p.2 - q.2) ^ 2

/-- Euclidean distance between two points. -/
def ptDist (p q : Pt) : ℝ := Real.sqrt (sqNorm p q)

/-- The point of segment `[a, b]` closest to `p` (shapely's nearest point on
a single segment): the orthogonal projection clamped to the segment, with a
degenerate segment collapsing to `a`. -/
def closestOnSeg (a b p : Pt) : Pt :=
  let dx := b.1 - a.1
  let dy := b.2 - a.2
  let len2 := dx ^ 2 + dy ^ 2
  if len2 = 0 then a
  else
    let t := max 0 (min 1 (((p.1 - a.1) * dx + (p.2 - a.2) * dy) / len2))
    (a.1 + t * dx, a.2 + t * dy)

/-- Consecutive vertex pairs of a polyline. -/
def segsOf : List Pt → List (Pt × Pt)
  | a :: b :: r => (a, b) :: segsOf (b :: r)
  | _ => []

/-- Scan the segments accumulating the arc-length position of the nearest
point seen so far; a strictly smaller distance replaces the best candidate,
so the first of several equally near segments wins, as in the source's
strict `<` comparison against an initial infinity. -/
def projectScan (p : Pt) : List (Pt × Pt) → ℝ → Option (ℝ × ℝ) → ℝ
  | [], _, best =>
    (match best with
     | some x => x.2
     | none => 0)
  | (a, b) :: rest, cum, best =>
    let c := closestOnSeg a b p
    let dc := ptDist p c
    let cand := (dc, cum + ptDist a c)
    let best2 :=
      match best with
      | none => some cand
      | some (bd, bp) => if dc < bd then some cand else some (bd, bp)
    projectScan p rest (cum + ptDist a b) best2

/-- `street_line.project(sign_point)`: the arc-length position of the point of
the polyline nearest to `p`. -/
def projectOnLine (coords : List Pt) (p : Pt) : ℝ :=
  projectScan p (segsOf coords) 0 none

/-- `street_line.interpolate(l)` for `l ≥ 0`: walk the polyline and place the
point at arc length `l`, clamping past the final vertex. -/
def interpolateOnLine : List Pt → ℝ → Pt
  | [], _ => (0, 0)
  | [a], _ => a
  | a :: b :: rest, l =>
    let L := ptDist a b
    if l ≤ L then
      (if L = 0 then a
       else (a.1 + (l / L) * (b.1 - a.1), a.2 + (l / L) * (b.2 - a.2)))
    else interpolateOnLine (b :: rest) (l - L)

/-- The nearest point of the polyline to `p`, computed as the source does by
`interpolate(project(p))`. -/
def nearestPointOnLine (coords : List Pt) (p : Pt) : Pt :=
  interpolateOnLine coords (projectOnLine coords p)

/-- The source's segment-selection loop: index of the first segment at
strictly minimal distance from `q` (distance to a two-point `LineString`,
i.e. to the closest point of the segment). -/
def findSegIdxScan (q : Pt) : List (Pt × Pt) → Nat → Option (ℝ × Nat) → Nat
  | [], _, best =>
    (match best with
     | some x => x.2
     | none => 0)
  | (a, b) :: rest, i, best =>
    let dc := ptDist q (closestOnSeg a b q)
    let best2 :=
      match best with
      | none => some (dc, i)
      | some (bd, bi) => if dc < bd then some (dc, i) else some (bd, bi)
    findSegIdxScan q rest (i + 1) best2

def findSegIdx (coords : List Pt) (q : Pt) : Nat :=
  findSegIdxScan q (segsOf coords) 0 none

/-- `create_street_interval` of `montreal_parking_finder/geo/osm.py`.  The
direction is the arrow string; intervals are two-point polylines.  The
`interval_length` argument is the source's parameter with default value 50. -/
def create_street_interval (coords : List Pt) (sign : Pt) (direction : Str)
    (interval_length : ℝ) : List (List Pt) :=
  let nearest := nearestPointOnLine coords sign
  let i := findSegIdx coords nearest
  let s := coords.getD i (0, 0)
  let e := coords.getD (i + 1) (0, 0)
  if direction = "both_sides".toList then [[s, nearest], [nearest, e]]
  else if direction = "left".toList then [[s, nearest]]
  else if direction = "right".toList then [[nearest, e]]
  else if direction = "up".toList then
    let proj := projectOnLine coords sign
    [[interpolateOnLine coords (max 0 (proj - interval_length / 2)),
      interpolateOnLine coords (proj + interval_length / 2)]]
  else
    [[(nearest.1 - 1 / 10000, nearest.2), (nearest.1 + 1 / 10000, nearest.2)]]

/-- Start vertex of the enclosing segment chosen for a sign. -/
def enclosingStart (coords : List Pt) (sign : Pt) : Pt :=
  coords.getD (findSegIdx coords (nearestPointOnLine coords sign)) (0, 0)

/-- End vertex of the enclosing segment chosen for a sign. -/
def enclosingEnd (coords : List Pt) (sign : Pt) : Pt :=
  coords.getD (findSegIdx coords (nearestPointOnLine coords sign) + 1) (0, 0)

end Geometry

/-! Specification-side vocabulary: the three gates of the evaluator contract,
stated as in the specification and compared against `is_parking_allowed`. -/

/-- The day gate: true when `days` is empty or contains the weekday. -/
def dayGate (r : ParseResult) (now : DateTime) : Bool :=
  r.days.isEmpty || r.days.contains now.weekday

/-- One time window contains the instant (inclusive bounds); malformed
windows contain nothing. -/
def windowContains (t : Nat) (p : Str × Str) : Bool :=
  match timeVal p.1, timeVal p.2 with
  | some sv, some ev => decide (sv ≤ t ∧ t ≤ ev)
  | _, _ => false

/-- The time gate: true when `time_ranges` is empty or some window contains
the instant. -/
def timeGate (r : ParseResult) (now : DateTime) : Bool :=
  r.time_ranges.isEmpty || r.time_ranges.any (windowContains now.timeOfDay)

/-- The date gate: true when `date_ranges` is empty or some range contains
the month/day pair. -/
def dateGate (r : ParseResult) (now : DateTime) : Bool :=
  r.date_ranges.isEmpty || r.date_ranges.any (dateInRange now.month now.day)

/-- The conjunction of the three gates. -/
def restrictionApplies (r : ParseResult) (now : DateTime) : Bool :=
  dayGate r now && timeGate r now && dateGate r now

/-- Spec-side boundary test: the month/day pair is on or after the range
start. -/
abbrev onOrAfter (month day sm sd : Nat) : Prop :=
  sm < month ∨ (month = sm ∧ sd ≤ day)

/-- Spec-side boundary test: the month/day pair is on or before the range
end. -/
abbrev onOrBefore (month day em ed : Nat) : Prop :=
  month < em ∨ (month = em ∧ day ≤ ed)

/-- Lexicographic order on month/day pairs, used to say that a date lies
strictly between two calendar points. -/
abbrev lexBefore (m1 d1 m2 d2 : Nat) : Prop :=
  m1 < m2 ∨ (m1 = m2 ∧ d1 < d2)

/-- A stored window whose start time is strictly later than its end time. -/
def invertedWindow (p : Str × Str) : Bool :=
  match timeVal p.1, timeVal p.2 with
  | some sv, some ev => decide (ev < sv)
  | _, _ => false

/-- The evaluator's time loop computes exactly the "some window contains the
instant" disjunction whenever every stored window is well formed. -/
theorem timeMatchAux_eq_any (t : Nat) (ws : List (Str × Str))
    (hw : ∀ p ∈ ws, (timeVal p.1).isSome ∧ (timeVal p.2).isSome) :
    timeMatchAux t ws = some (ws.any (windowContains t)) := by
  induction ws with
  | nil => rfl
  | cons p rest ih =>
    obtain ⟨h1, h2⟩ := hw p (List.mem_cons_self p rest)
    obtain ⟨sv, hsv⟩ := Option.isSome_iff_exists.mp h1
    obtain ⟨ev, hev⟩ := Option.isSome_iff_exists.mp h2
    have ih2 := ih (fun q hq => hw q (List.mem_cons_of_mem p hq))
    obtain ⟨a, b⟩ := p
    simp only at hsv hev
    by_cases hc : sv ≤ t ∧ t ≤ ev
    · simp [timeMatchAux, hsv, hev, hc, windowContains]
    · simp [timeMatchAux, hsv, hev, hc, windowContains, ih2]

/-- C1: for every rule and instant, `is_parking_allowed` returns `false`
whenever `all_time` is set, and otherwise the negation of
(`restrictionApplies` and `is_restricted`), where `restrictionApplies` is the
conjunction of the day, time and date gates; each gate is true whenever its
field is empty, and in particular a rule with all three gates empty and
`is_restricted` set is restricted at every instant.  (Well-formedness of the
stored time windows is the data-model invariant of the spec's
`time_windows`: pairs of times of day.) -/
theorem claim1_evaluator_contract (r : ParseResult) (now : DateTime)
    (hw : ∀ p ∈ r.time_ranges, (timeVal p.1).isSome ∧ (timeVal p.2).isSome) :
    is_parking_allowed r now =
      some (if r.all_time then false
            else !(restrictionApplies r now && r.is_restricted)) ∧
    (r.days = [] → dayGate r now = true) ∧
    (r.time_ranges = [] → timeGate r now = true) ∧
    (r.date_ranges = [] → dateGate r now = true) ∧
    (r.days = [] → r.time_ranges = [] → r.date_ranges = [] →
      r.is_restricted = true → is_parking_allowed r now = some false) := by
  have hmain : is_parking_allowed r now =
      some (if r.all_time then false
            else !(restrictionApplies r now && r.is_restricted)) := by
    by_cases ha : r.all_time
    · simp [is_parking_allowed, ha]
    · by_cases he : r.time_ranges.isEmpty
      · simp [is_parking_allowed, ha, he, restrictionApplies, dayGate, timeGate,
              dateGate, Bool.and_assoc]
      · simp [is_parking_allowed, ha, he, restrictionApplies, dayGate, timeGate,
              dateGate, timeMatchAux_eq_any now.timeOfDay r.time_ranges hw,
              Bool.and_assoc]
  refine ⟨hmain, fun hd => by simp [dayGate, hd], fun ht => by simp [timeGate, ht],
          fun hdt => by simp [dateGate, hdt], fun hd ht hdt hr => ?_⟩
  rw [hmain]
  have happ : restrictionApplies r now = true := by
    simp [restrictionApplies, dayGate, timeGate, dateGate, hd, ht, hdt]
  cases hat : r.all_time <;> simp [happ, hr]

/-- Witness for C1 at a concrete parsed rule and instant. -/
theorem claim1_evaluator_contract_witness :
    (∀ p ∈ (parse_restriction (some ("\\P LUN AU VEN 9h00-18h00".toList))).time_ranges,
      (timeVal p.1).isSome ∧ (timeVal p.2).isSome) ∧
    is_parking_allowed (parse_restriction (some ("\\P LUN AU VEN 9h00-18h00".toList)))
        ⟨"Tuesday".toList, 43200, 10, 10⟩ =
      some (if (parse_restriction (some ("\\P LUN AU VEN 9h00-18h00".toList))).all_time
            then false
            else !(restrictionApplies
                     (parse_restriction (some ("\\P LUN AU VEN 9h00-18h00".toList)))
                     ⟨"Tuesday".toList, 43200, 10, 10⟩ &&
                   (parse_restriction
                     (some ("\\P LUN AU VEN 9h00-18h00".toList))).is_restricted)) :=
  ⟨by decide, (claim1_evaluator_contract _ _ (by decide)).1⟩

/-- C2 (amended): a rule classified Paid (`type = $`, `is_restricted = false`)
whose `always_restricted` flag is clear evaluates as allowed at every instant
with well-formed windows; the original claim's "regardless of flags" fails
because `all_time` overrides everything. -/
theorem claim2_paid_always_allowed (r : ParseResult) (now : DateTime)
    (htype : r.type = some '$') (hres : r.is_restricted = false)
    (hat : r.all_time = false)
    (hw : ∀ p ∈ r.time_ranges, (timeVal p.1).isSome ∧ (timeVal p.2).isSome) :
    is_parking_allowed r now = some true := by
  by_cases he : r.time_ranges.isEmpty
  · simp [is_parking_allowed, hat, he, hres]
  · simp [is_parking_allowed, hat, he, hres,
          timeMatchAux_eq_any now.timeOfDay r.time_ranges hw]

/-- Counterexample to C2 as stated: a Paid rule carrying the all-time marker
is evaluated as not allowed. -/
theorem claim2_counterexample :
    (parse_restriction (some ("PARCOMETRE EN TOUT TEMPS".toList))).type = some '$' ∧
    (parse_restriction (some ("PARCOMETRE EN TOUT TEMPS".toList))).is_restricted = false ∧
    is_parking_allowed (parse_restriction (some ("PARCOMETRE EN TOUT TEMPS".toList)))
      ⟨"Monday".toList, 43200, 7, 1⟩ = some false := by decide

/-- Witness for the amended C2 at a concrete paid rule. -/
theorem claim2_paid_always_allowed_witness :
    is_parking_allowed (parse_restriction (some ("PARCOMETRE 9h-21h LUN A SAM".toList)))
      ⟨"Monday".toList, 43200, 7, 1⟩ = some true :=
  claim2_paid_always_allowed _ _ (by decide) (by decide) (by decide) (by decide)

/-- C3: a wrapping date range (start month greater than end month) matches
exactly the disjunction of the two inclusive boundary tests and excludes
every date strictly between its end and its start, while a non-wrapping range
matches exactly their conjunction. -/
theorem claim3_date_range_semantics (r : DateRange) (month day : Nat) :
    (r.end_month < r.start_month →
      ((dateInRange month day r = true ↔
          (onOrAfter month day r.start_month r.start_day ∨
           onOrBefore month day r.end_month r.end_day)) ∧
       (lexBefore r.end_month r.end_day month day →
        lexBefore month day r.start_month r.start_day →
        dateInRange month day r = false))) ∧
    (r.start_month ≤ r.end_month →
      (dateInRange month day r = true ↔
        (onOrAfter month day r.start_month r.start_day ∧
         onOrBefore month day r.end_month r.end_day))) := by
  refine ⟨fun h => ⟨?_, fun h1 h2 => ?_⟩, fun h => ?_⟩
  · rw [dateInRange, if_pos (by omega)]
    simp only [decide_eq_true_eq, gt_iff_lt, ge_iff_le]
  · rw [dateInRange, if_pos (by omega)]
    simp only [decide_eq_false_iff_not, gt_iff_lt, ge_iff_le]
    omega
  · rw [dateInRange, if_neg (by omega)]
    simp only [decide_eq_true_eq, gt_iff_lt, ge_iff_le]

/-- Witness for C3: both arms of a wrapping November-to-March range, the
excluded middle of the year, and a non-wrapping April-to-November range. -/
theorem claim3_date_range_semantics_witness :
    dateInRange 12 25 ⟨1, 11, 15, 3⟩ = true ∧
    dateInRange 2 10 ⟨1, 11, 15, 3⟩ = true ∧
    dateInRange 7 1 ⟨1, 11, 15, 3⟩ = false ∧
    dateInRange 10 10 ⟨1, 4, 1, 11⟩ = true := by
  refine ⟨?_, ?_, ?_, ?_⟩
  · exact ((claim3_date_range_semantics ⟨1, 11, 15, 3⟩ 12 25).1 (by decide)).1.mpr
      (Or.inl (by decide))
  · exact ((claim3_date_range_semantics ⟨1, 11, 15, 3⟩ 2 10).1 (by decide)).1.mpr
      (Or.inr (by decide))
  · exact ((claim3_date_range_semantics ⟨1, 11, 15, 3⟩ 7 1).1 (by decide)).2
      (by decide) (by decide)
  · exact (claim3_date_range_semantics ⟨1, 4, 1, 11⟩ 10 10).2 (by decide) |>.mpr
      ⟨by decide, by decide⟩

/-- C4: the parser is total; an input with no recognizable markers (including
the missing-description case) yields the default Unrestricted record with all
gates empty, and a date-range match whose month tokens do not both resolve is
discarded while the remaining matches are still processed. -/
theorem claim4_malformed_input_degrades :
    (parse_restriction none = emptyResult none) ∧
    (∀ d : Str,
      classifyType d = (none, false) →
      containsSub "EN TOUT TEMPS".toList d = false →
      findTimeRanges d = [] →
      daysOf d = [] →
      findDateMatches d = [] →
      findSpecial d = none →
      parse_restriction (some d) = emptyResult (some d)) ∧
    (∀ (m : RawDateMatch) (ms : List RawDateMatch),
      buildDateRanges (m :: ms) =
        (if 0 < resolveMonth m.m1 ∧ 0 < resolveMonth m.m2 then
          [⟨parseNatDigits m.d1, resolveMonth m.m1, parseNatDigits m.d2,
            resolveMonth m.m2⟩]
         else []) ++ buildDateRanges ms) := by
  refine ⟨rfl, fun d h1 h2 h3 h4 h5 h6 => ?_, fun m ms => ?_⟩
  · by_cases he : d.isEmpty
    · simp [parse_restriction, he]
    · simp [parse_restriction, he, h1, h3, h4, h5, h6, buildDateRanges,
            emptyResult]
      exact h2
  · by_cases h : 0 < resolveMonth m.m1 ∧ 0 < resolveMonth m.m2 <;>
      simp [buildDateRanges, h]

/-- Witness for C4: a marker-free text parses to the default record, and an
unresolvable first match is dropped while the following match is kept. -/
theorem claim4_malformed_input_degrades_witness :
    parse_restriction (some ("HELLO WORLD".toList)) =
      emptyResult (some ("HELLO WORLD".toList)) ∧
    buildDateRanges
        [⟨['1'], "XYZ".toList, "AU".toList, ['2'], "MAI".toList⟩,
         ⟨['1'], "MAI".toList, "AU".toList, ['2'], "JUIN".toList⟩] =
      [⟨1, 5, 2, 6⟩] := by
  refine ⟨claim4_malformed_input_degrades.2.1 _ (by decide) (by decide) (by decide)
    (by decide) (by decide) (by decide), ?_⟩
  rw [claim4_malformed_input_degrades.2.2 _ _]
  decide

/-- C5: type determination precedence — a no-parking prefix `\P` classifies
the rule `P` with `is_restricted = true`, else a no-stopping prefix `\A`
classifies it `A` with `is_restricted = true`, else a paid signature
classifies it `$` with `is_restricted = false`, else the type stays `none`
with `is_restricted = false`. -/
theorem claim5_type_precedence (d : Str) :
    ("\\P".toList.isPrefixOf d = true →
      (parse_restriction (some d)).type = some 'P' ∧
      (parse_restriction (some d)).is_restricted = true) ∧
    ("\\P".toList.isPrefixOf d = false → "\\A".toList.isPrefixOf d = true →
      (parse_restriction (some d)).type = some 'A' ∧
      (parse_restriction (some d)).is_restricted = true) ∧
    ("\\P".toList.isPrefixOf d = false → "\\A".toList.isPrefixOf d = false →
      paidSignature d = true →
      (parse_restriction (some d)).type = some '$' ∧
      (parse_restriction (some d)).is_restricted = false) ∧
    ("\\P".toList.isPrefixOf d = false → "\\A".toList.isPrefixOf d = false →
      paidSignature d = false →
      (parse_restriction (some d)).type = none ∧
      (parse_restriction (some d)).is_restricted = false) := by
  have hres : ∀ he : d.isEmpty = false,
      parse_restriction (some d) =
        { type := (classifyType d).1
          is_restricted := (classifyType d).2
          time_ranges := (findTimeRanges d).map (fun p => (replace24 p.1, replace24 p.2))
          days := daysOf d
          date_ranges := buildDateRanges (findDateMatches d)
          special := findSpecial d
          all_time := containsSub "EN TOUT TEMPS".toList d
          raw_description := some d } := by
    intro he
    simp [parse_restriction, he]
  refine ⟨fun h1 => ?_, fun h1 h2 => ?_, fun h1 h2 h3 => ?_, fun h1 h2 h3 => ?_⟩
  · have hne : d.isEmpty = false := by
      cases d with
      | nil => exact absurd h1 (by decide)
      | cons c cs => rfl
    rw [hres hne]
    rw [classifyType, if_pos h1]
    exact ⟨rfl, rfl⟩
  · have hne : d.isEmpty = false := by
      cases d with
      | nil => exact absurd h2 (by decide)
      | cons c cs => rfl
    rw [hres hne]
    rw [classifyType, if_neg (by rw [h1]; exact Bool.false_ne_true), if_pos h2]
    exact ⟨rfl, rfl⟩
  · have hne : d.isEmpty = false := by
      cases d with
      | nil => exact absurd h3 (by decide)
      | cons c cs => rfl
    rw [hres hne]
    rw [classifyType, if_neg (by rw [h1]; exact Bool.false_ne_true), if_neg (by rw [h2]; exact Bool.false_ne_true), if_pos h3]
    exact ⟨rfl, rfl⟩
  · by_cases he : d.isEmpty
    · simp [parse_restriction, he, emptyResult]
    · rw [hres (by simpa using he)]
      rw [classifyType, if_neg (by rw [h1]; exact Bool.false_ne_true), if_neg (by rw [h2]; exact Bool.false_ne_true),
          if_neg (by rw [h3]; exact Bool.false_ne_true)]
      exact ⟨rfl, rfl⟩

/-- Witness for C5 at one input per precedence branch. -/
theorem claim5_type_precedence_witness :
    ((parse_restriction (some ("\\P 9h00-17h00".toList))).type = some 'P' ∧
     (parse_restriction (some ("\\P 9h00-17h00".toList))).is_restricted = true) ∧
    ((parse_restriction (some ("\\A EN TOUT TEMPS".toList))).type = some 'A' ∧
     (parse_restriction (some ("\\A EN TOUT TEMPS".toList))).is_restricted = true) ∧
    ((parse_restriction (some ("PARCOMETRE 9h-21h".toList))).type = some '$' ∧
     (parse_restriction (some ("PARCOMETRE 9h-21h".toList))).is_restricted = false) ∧
    ((parse_restriction (some ("HELLO WORLD".toList))).type = none ∧
     (parse_restriction (some ("HELLO WORLD".toList))).is_restricted = false) :=
  ⟨(claim5_type_precedence _).1 (by decide),
   (claim5_type_precedence _).2.1 (by decide) (by decide),
   (claim5_type_precedence _).2.2.1 (by decide) (by decide) (by decide),
   (claim5_type_precedence _).2.2.2 (by decide) (by decide) (by decide)⟩

/-- C6: a day-range connector phrase sets the day set to exactly its expanded
weekday enumeration, following the source's `if`/`elif` precedence, and in
doing so overwrites any individually matched single-day tokens. -/
theorem claim6_day_range_overwrites (d : Str) :
    (lunVen d = true → (parse_restriction (some d)).days = mondayToFriday) ∧
    (lunVen d = false → lunSam d = true →
      (parse_restriction (some d)).days = mondayToSaturday) ∧
    (lunVen d = false → lunSam d = false → lunDim d = true →
      (parse_restriction (some d)).days = mondayToSunday) := by
  refine ⟨fun h1 => ?_, fun h1 h2 => ?_, fun h1 h2 h3 => ?_⟩
  · cases d with
    | nil => exact absurd h1 (by decide)
    | cons c cs => simp [parse_restriction, daysOf, h1]
  · cases d with
    | nil => exact absurd h2 (by decide)
    | cons c cs => simp [parse_restriction, daysOf, h1, h2]
  · cases d with
    | nil => exact absurd h3 (by decide)
    | cons c cs => simp [parse_restriction, daysOf, h1, h2, h3]

/-- Witness for C6: a text holding both a Monday-to-Friday phrase and a stray
Sunday token parses to exactly the five weekdays (the stray token is
overwritten, not unioned). -/
theorem claim6_day_range_overwrites_witness :
    lunVen ("\\P LUN AU VEN DIM 9h00-17h00".toList) = true ∧
    searchDay "DIM".toList ("\\P LUN AU VEN DIM 9h00-17h00".toList) = true ∧
    (parse_restriction (some ("\\P LUN AU VEN DIM 9h00-17h00".toList))).days =
      mondayToFriday :=
  ⟨by decide, by decide, (claim6_day_range_overwrites _).1 (by decide)⟩

/-- Counterexample to C7 as stated: in the token `9h24-10h30` the minute
digits `24` of the start endpoint are rewritten to `00`, so digits other
than an hour value of 24 are altered. -/
theorem claim7_counterexample :
    (parse_restriction (some ("\\P 9h24-10h30".toList))).time_ranges =
      [("9h00".toList, "10h30".toList)] ∧
    (parse_restriction (some ("\\P 9h24-10h30".toList))).time_ranges ≠
      [("9h24".toList, "10h30".toList)] := by decide

def digitChar (n : Nat) : Char := Char.ofNat (48 + n)

/-- Two-digit decimal rendering of a number below 100. -/
def twoDigits (n : Nat) : Str := [digitChar (n / 10), digitChar (n % 10)]

/-- C7 (amended): each endpoint of a matched time token is normalized by
replacing every occurrence of the digit pair `24` with `00`; on a
two-digit-hour token this turns hour 24 into 0 and also rewrites a minute
value of 24 to 00, leaving all other digits unchanged, and on a
one-digit-hour token only a minute value of 24 is rewritten. -/
theorem claim7_normalization_amended :
    (∀ d : Str, (parse_restriction (some d)).time_ranges =
      (findTimeRanges d).map (fun p => (replace24 p.1, replace24 p.2))) ∧
    (∀ h : Nat, h ≤ 24 → ∀ m : Nat, m ≤ 59 →
      replace24 (twoDigits h ++ 'h' :: twoDigits m) =
        twoDigits (if h = 24 then 0 else h) ++ 'h' ::
          twoDigits (if m = 24 then 0 else m)) ∧
    (∀ h : Nat, h ≤ 9 → ∀ m : Nat, m ≤ 59 →
      replace24 (digitChar h :: 'h' :: twoDigits m) =
        digitChar h :: 'h' :: twoDigits (if m = 24 then 0 else m)) := by
  refine ⟨fun d => ?_, by decide, by decide⟩
  cases d with
  | nil => rfl
  | cons c cs => rfl

/-- Witness for the amended C7: hour 24 and minute 24 are both rewritten. -/
theorem claim7_normalization_amended_witness :
    replace24 (twoDigits 24 ++ 'h' :: twoDigits 24) =
      twoDigits (if 24 = 24 then 0 else 24) ++ 'h' ::
        twoDigits (if 24 = 24 then 0 else 24) ∧
    replace24 (digitChar 9 :: 'h' :: twoDigits 24) =
      digitChar 9 :: 'h' :: twoDigits (if 24 = 24 then 0 else 24) :=
  ⟨claim7_normalization_amended.2.1 24 (by decide) 24 (by decide),
   claim7_normalization_amended.2.2 9 (by decide) 24 (by decide)⟩

/-- C10: a stored window whose start time of day is strictly later than its
end time contains no instant at all, so a rule whose (non-empty) windows are
all inverted has a time gate that is false at every instant, and with
`all_time` clear such a rule never blocks parking — time windows do not wrap
around midnight. -/
theorem claim10_overnight_windows_unsatisfiable (r : ParseResult) (now : DateTime)
    (hv : ∀ p ∈ r.time_ranges, invertedWindow p = true)
    (hne : r.time_ranges ≠ []) (hat : r.all_time = false) :
    timeMatchAux now.timeOfDay r.time_ranges = some false ∧
    (∀ p ∈ r.time_ranges, windowContains now.timeOfDay p = false) ∧
    is_parking_allowed r now = some true := by
  have key : ∀ ws : List (Str × Str), (∀ p ∈ ws, invertedWindow p = true) →
      timeMatchAux now.timeOfDay ws = some false := by
    intro ws h
    induction ws with
    | nil => rfl
    | cons p rest ih =>
      have hp := h p (List.mem_cons_self p rest)
      obtain ⟨a, b⟩ := p
      unfold invertedWindow at hp
      cases hsv : timeVal a with
      | none => rw [hsv] at hp; simp at hp
      | some sv =>
        cases hev : timeVal b with
        | none => rw [hsv, hev] at hp; simp at hp
        | some ev =>
          rw [hsv, hev] at hp
          simp only [decide_eq_true_eq] at hp
          have hno : ¬(sv ≤ now.timeOfDay ∧ now.timeOfDay ≤ ev) := by omega
          simp [timeMatchAux, hsv, hev, hno,
                ih (fun q hq => h q (List.mem_cons_of_mem _ hq))]
  have hw : ∀ p ∈ r.time_ranges, windowContains now.timeOfDay p = false := by
    intro p hp
    have hip := hv p hp
    obtain ⟨a, b⟩ := p
    unfold invertedWindow at hip
    unfold windowContains
    cases hsv : timeVal a with
    | none => simp [hsv] at hip
    | some sv =>
      cases hev : timeVal b with
      | none => simp [hsv, hev] at hip
      | some ev =>
        rw [hsv, hev] at hip
        simp only [decide_eq_true_eq] at hip
        simp only [decide_eq_false_iff_not]
        omega
  have he : r.time_ranges.isEmpty = false := by
    cases hrt : r.time_ranges with
    | nil => exact absurd hrt hne
    | cons p rest => rfl
  refine ⟨key r.time_ranges hv, hw, ?_⟩
  simp [is_parking_allowed, hat, he, key r.time_ranges hv]

/-- Witness for C10: an overnight 22h00-06h00 no-parking rule matches no
instant and leaves parking allowed, here at noon on a Monday. -/
theorem claim10_overnight_windows_unsatisfiable_witness :
    timeMatchAux 43200
      (parse_restriction (some ("\\P 22h00-06h00".toList))).time_ranges = some false ∧
    is_parking_allowed (parse_restriction (some ("\\P 22h00-06h00".toList)))
      ⟨"Monday".toList, 43200, 7, 1⟩ = some true :=
  ⟨(claim10_overnight_windows_unsatisfiable _ ⟨"Monday".toList, 43200, 7, 1⟩
      (by decide) (by decide) (by decide)).1,
   (claim10_overnight_windows_unsatisfiable _ ⟨"Monday".toList, 43200, 7, 1⟩
      (by decide) (by decide) (by decide)).2.2⟩

/-- C8: with direction BothSides the generator returns exactly the two
intervals segment-start-to-anchor and anchor-to-segment-end; on a two-vertex
street these reconstruct the street's endpoints; with Left it returns the
single interval segment-start-to-anchor and with Right the single interval
anchor-to-segment-end. -/
theorem claim8_direction_interval_shapes (coords : List Pt) (sign : Pt)
    (ilen : ℝ) (h2 : 2 ≤ coords.length) :
    (create_street_interval coords sign ("both_sides".toList) ilen =
      [[enclosingStart coords sign, nearestPointOnLine coords sign],
       [nearestPointOnLine coords sign, enclosingEnd coords sign]]) ∧
    (create_street_interval coords sign ("left".toList) ilen =
      [[enclosingStart coords sign, nearestPointOnLine coords sign]]) ∧
    (create_street_interval coords sign ("right".toList) ilen =
      [[nearestPointOnLine coords sign, enclosingEnd coords sign]]) ∧
    (∀ a b : Pt, coords = [a, b] →
      create_street_interval coords sign ("both_sides".toList) ilen =
        [[a, nearestPointOnLine coords sign],
         [nearestPointOnLine coords sign, b]]) := by
  refine ⟨rfl, ?_, ?_, fun a b h => ?_⟩
  · simp only [create_street_interval, if_true]
    rfl
  · simp only [create_street_interval, if_true]
    rfl
  · subst h
    rfl

/-- Witness for C8 on a concrete two-vertex street. -/
theorem claim8_direction_interval_shapes_witness :
    (2 ≤ ([((0:ℝ), (0:ℝ)), ((1:ℝ), (0:ℝ))] : List Pt).length) ∧
    create_street_interval [((0:ℝ), (0:ℝ)), ((1:ℝ), (0:ℝ))] ((1:ℝ), (1:ℝ))
        ("both_sides".toList) 50 =
      [[((0:ℝ), (0:ℝ)),
        nearestPointOnLine [((0:ℝ), (0:ℝ)), ((1:ℝ), (0:ℝ))] ((1:ℝ), (1:ℝ))],
       [nearestPointOnLine [((0:ℝ), (0:ℝ)), ((1:ℝ), (0:ℝ))] ((1:ℝ), (1:ℝ)),
        ((1:ℝ), (0:ℝ))]] :=
  ⟨by norm_num,
   (claim8_direction_interval_shapes _ _ 50 (by norm_num)).2.2.2 _ _ rfl⟩

/-- C9 (amended): every interval returned by the generator, for every
direction including unrecognized ones, consists of exactly two coordinate
pairs — but the two pairs need not be distinct: a sign projecting onto a
vertex produces a degenerate interval. -/
theorem claim9_intervals_have_two_points (coords : List Pt) (sign : Pt)
    (direction : Str) (ilen : ℝ) (h2 : 2 ≤ coords.length) :
    ∀ seg ∈ create_street_interval coords sign direction ilen, seg.length = 2 := by
  intro seg hseg
  unfold create_street_interval at hseg
  split_ifs at hseg <;> simp at hseg <;>
    first
      | (rcases hseg with h | h <;> subst h <;> rfl)
      | (subst hseg; rfl)

/-- Witness for the amended C9 on a concrete street, with the Left
direction. -/
theorem claim9_intervals_have_two_points_witness :
    ((create_street_interval [((0:ℝ), (0:ℝ)), ((2:ℝ), (0:ℝ))] ((1:ℝ), (1:ℝ))
        ("left".toList) 50).headD []).length = 2 :=
  claim9_intervals_have_two_points [((0:ℝ), (0:ℝ)), ((2:ℝ), (0:ℝ))]
    ((1:ℝ), (1:ℝ)) ("left".toList) 50 (by norm_num) _
    (by simp only [create_street_interval, if_true, List.headD_cons]
        exact List.mem_singleton_self _)

/-- Counterexample to C9 as stated: a sign sitting exactly at a street
vertex yields, with direction Left, a single interval whose two coordinate
pairs are equal — it does not have two distinct coordinate pairs. -/
theorem claim9_counterexample :
    create_street_interval [((0:ℝ), (0:ℝ)), ((1:ℝ), (0:ℝ))] ((0:ℝ), (0:ℝ))
        ("left".toList) 50 =
      [[((0:ℝ), (0:ℝ)), ((0:ℝ), (0:ℝ))]] ∧
    ∀ seg ∈ create_street_interval [((0:ℝ), (0:ℝ)), ((1:ℝ), (0:ℝ))]
        ((0:ℝ), (0:ℝ)) ("left".toList) 50,
      ∀ p ∈ seg, ∀ q ∈ seg, p = q := by
  have hclosest : closestOnSeg ((0:ℝ), (0:ℝ)) ((1:ℝ), (0:ℝ)) ((0:ℝ), (0:ℝ)) =
      ((0:ℝ), (0:ℝ)) := by
    unfold closestOnSeg
    rw [if_neg (by norm_num)]
    norm_num
  have hd0 : ptDist ((0:ℝ), (0:ℝ)) ((0:ℝ), (0:ℝ)) = 0 := by
    unfold ptDist sqNorm
    norm_num
  have hd1 : ptDist ((0:ℝ), (0:ℝ)) ((1:ℝ), (0:ℝ)) = 1 := by
    unfold ptDist sqNorm
    norm_num
  have hproj : projectOnLine [((0:ℝ), (0:ℝ)), ((1:ℝ), (0:ℝ))] ((0:ℝ), (0:ℝ)) = 0 := by
    simp only [projectOnLine, segsOf, projectScan, hclosest, hd0]
    norm_num
  have hint : interpolateOnLine [((0:ℝ), (0:ℝ)), ((1:ℝ), (0:ℝ))] 0 = ((0:ℝ), (0:ℝ)) := by
    unfold interpolateOnLine
    rw [hd1, if_pos (by norm_num), if_neg (by norm_num)]
    norm_num
  have hnear : nearestPointOnLine [((0:ℝ), (0:ℝ)), ((1:ℝ), (0:ℝ))] ((0:ℝ), (0:ℝ)) =
      ((0:ℝ), (0:ℝ)) := by
    unfold nearestPointOnLine
    rw [hproj, hint]
  have hmain : create_street_interval [((0:ℝ), (0:ℝ)), ((1:ℝ), (0:ℝ))]
      ((0:ℝ), (0:ℝ)) ("left".toList) 50 = [[((0:ℝ), (0:ℝ)), ((0:ℝ), (0:ℝ))]] := by
    unfold create_street_interval
    rw [hnear]
    rw [if_neg (by decide), if_pos rfl]
    rfl
  refine ⟨hmain, ?_⟩
  rw [hmain]
  intro seg hseg p hp q hq
  simp only [List.mem_singleton] at hseg
  subst hseg
  simp only [List.mem_cons, List.not_mem_nil, or_false] at hp hq
  rcases hp with hp | hp <;> rcases hq with hq | hq <;> rw [hp, hq]

end MPF
